import Mathlib

/-!
Verification of `packages/puppeteer-core/src/cdp/FetchRequestPaused.ts`:
a shallow embedding of the `FetchRequestPaused` class (a paused Fetch-domain
request with three one-shot resolution operations) together with the
wire-format helpers it consumes, and proofs of the specified properties.
-/

set_option autoImplicit false

namespace FetchPaused

/-! ## Header values

Caller-supplied response headers have type `Record<string, unknown>`; in
practice the values are strings, numbers, or arrays of those.  `String(x)`
stringifies a primitive. -/

/-- A primitive header value: a string or a number (stringified by `String()`). -/
inductive HeaderPrim where
  | str (s : String)
  | num (n : Int)
deriving DecidableEq, Repr

/-- JavaScript `String(x)` on a primitive header value. -/
def HeaderPrim.toStr : HeaderPrim → String
  | .str s => s
  | .num n => toString n

/-- A caller-supplied header value: a primitive or an array of primitives. -/
inductive HeaderValue where
  | prim (p : HeaderPrim)
  | list (xs : List HeaderPrim)
deriving DecidableEq, Repr

/-- A value of the built response-header record
(`Record<string, string | string[]>`, source line 163). -/
inductive RVal where
  | single (s : String)
  | multi (xs : List String)
deriving DecidableEq, Repr

/-- The stringification on the right-hand side of source line 168:
`Array.isArray(value) ? value.map(item => String(item)) : String(value)`. -/
def stringifyHeaderValue : HeaderValue → RVal
  | .prim p => .single p.toStr
  | .list xs => .multi (xs.map HeaderPrim.toStr)

/-! ## JavaScript string-keyed records

A JavaScript object with string keys, modelled as an ordered association
list with unique keys.  Property assignment `r[k] = v` updates the value in
place when the key exists (keeping its position in enumeration order) and
appends a new entry otherwise. -/

/-- An ordered string-keyed record. -/
abbrev HRecord := List (String × RVal)

/-- JavaScript `k in r`. -/
def recHas : HRecord → String → Bool
  | [], _ => false
  | p :: t, k => p.1 = k || recHas t k

/-- JavaScript property read `r[k]` (as an `Option`). -/
def recGet : HRecord → String → Option RVal
  | [], _ => none
  | p :: t, k => if p.1 = k then some p.2 else recGet t k

/-- JavaScript property assignment `r[k] = v`: update in place if the key
exists, append otherwise. -/
def recSet : HRecord → String → RVal → HRecord
  | [], k, v => [(k, v)]
  | p :: t, k, v => if p.1 = k then (k, v) :: t else p :: recSet t k v

/-- The keys of a record, in enumeration order. -/
def recKeys (r : HRecord) : List String := r.map (·.1)

/-! ## Wire-format helpers (external to the source file) -/

/-- Modelled from the spec: `headersArray` from `api/HTTPRequest.ts` (not under
`src/`): "a header map converted to an ordered list of name/value pairs
suitable for the wire format, with single names but potentially repeated
values" — a string value yields one pair, a list value one pair per element
in order. -/
def headersArray (r : HRecord) : List (String × String) :=
  r.flatMap (fun p =>
    match p.2 with
    | .single s => [(p.1, s)]
    | .multi xs => xs.map (fun s => (p.1, s)))

/-- The helper `headersArray` restricted to string-valued records, as used for the
`continue` override headers (`Record<string, string>`). -/
def headersArrayS (hs : List (String × String)) : List (String × String) :=
  headersArray (hs.map (fun p => (p.1, RVal.single p.2)))

/-! ## Binary-safe text encoding (external to the source file)

Modelled from the spec: `stringToBase64` from `util/encoding.ts` (not under
`src/`): "a reversible encoding of arbitrary bytes into a text-safe
alphabet" — base64 over the UTF-8 bytes of the text. -/

/-- The UTF-8 bytes of a character. -/
def utf8Bytes (c : Char) : List Nat :=
  let n := c.toNat
  if n < 128 then [n]
  else if n < 2048 then [192 + n / 64, 128 + n % 64]
  else if n < 65536 then [224 + n / 4096, 128 + n / 64 % 64, 128 + n % 64]
  else [240 + n / 262144, 128 + n / 4096 % 64, 128 + n / 64 % 64, 128 + n % 64]

/-- The UTF-8 bytes of a string. -/
def strBytes (s : String) : List Nat := s.data.flatMap utf8Bytes

/-- The base64 alphabet. -/
def base64Alphabet : List Char :=
  "ABCDEFGHIJKLMNOPQRSTUVWXYZabcdefghijklmnopqrstuvwxyz0123456789+/".data

/-- The base64 digit for a 6-bit value. -/
def b64Char (n : Nat) : Char := base64Alphabet.getD n '='

/-- Standard base64 of a byte list, with `=` padding. -/
def base64Encode : List Nat → List Char
  | [] => []
  | [b1] => [b64Char (b1 / 4), b64Char (b1 % 4 * 16), '=', '=']
  | [b1, b2] =>
    [b64Char (b1 / 4), b64Char (b1 % 4 * 16 + b2 / 16), b64Char (b2 % 16 * 4), '=']
  | b1 :: b2 :: b3 :: rest =>
    b64Char (b1 / 4) :: b64Char (b1 % 4 * 16 + b2 / 16) ::
      b64Char (b2 % 16 * 4 + b3 / 64) :: b64Char (b3 % 64) :: base64Encode rest

/-- Modelled from the spec: `stringToBase64` from `util/encoding.ts` (not
under `src/`): base64 of the UTF-8 bytes of the text. -/
def stringToBase64 (s : String) : String := ⟨base64Encode (strBytes s)⟩

/-! ## Response bodies -/

/-- A response body as the caller supplies it: text or pre-encoded binary
content (`string | Uint8Array`). -/
inductive BodyInit where
  | text (s : String)
  | binary (bs : List Nat)
deriving DecidableEq, Repr

/-- The derived body data: byte length and binary-safe encoded form. -/
structure ParsedBody where
  contentLength : Nat
  base64 : String
deriving DecidableEq, Repr

/-- Modelled from the spec: `HTTPRequest.getResponse` from `api/HTTPRequest.ts`
(not under `src/`): "derive two values: its byte length, and its binary-safe
encoded form, using whichever encoding variant matches whether the caller
supplied text or pre-encoded binary content". -/
def getResponse : BodyInit → ParsedBody
  | .text s => ⟨(strBytes s).length, stringToBase64 s⟩
  | .binary bs => ⟨bs.length, ⟨base64Encode bs⟩⟩

/-- JavaScript truthiness of a body value (source line 159 `if (response.body)`):
an empty string is falsy, any typed array (even empty) is truthy. -/
def bodyTruthy : BodyInit → Bool
  | .text s => !(s = "")
  | .binary _ => true

/-! ## Status phrases (external to the source file) -/

/-- Modelled from the spec: `STATUS_TEXTS` from `api/HTTPRequest.ts` (not
under `src/`): "a fixed table mapping status codes to their standard reason
phrase; an unrecognized code yields an absent/undefined phrase". -/
def STATUS_TEXTS : Nat → Option String
  | 100 => some "Continue"
  | 101 => some "Switching Protocols"
  | 102 => some "Processing"
  | 103 => some "Early Hints"
  | 200 => some "OK"
  | 201 => some "Created"
  | 202 => some "Accepted"
  | 203 => some "Non-Authoritative Information"
  | 204 => some "No Content"
  | 205 => some "Reset Content"
  | 206 => some "Partial Content"
  | 207 => some "Multi-Status"
  | 208 => some "Already Reported"
  | 226 => some "IM Used"
  | 300 => some "Multiple Choices"
  | 301 => some "Moved Permanently"
  | 302 => some "Found"
  | 303 => some "See Other"
  | 304 => some "Not Modified"
  | 305 => some "Use Proxy"
  | 306 => some "Switch Proxy"
  | 307 => some "Temporary Redirect"
  | 308 => some "Permanent Redirect"
  | 400 => some "Bad Request"
  | 401 => some "Unauthorized"
  | 402 => some "Payment Required"
  | 403 => some "Forbidden"
  | 404 => some "Not Found"
  | 405 => some "Method Not Allowed"
  | 406 => some "Not Acceptable"
  | 407 => some "Proxy Authentication Required"
  | 408 => some "Request Timeout"
  | 409 => some "Conflict"
  | 410 => some "Gone"
  | 411 => some "Length Required"
  | 412 => some "Precondition Failed"
  | 413 => some "Payload Too Large"
  | 414 => some "URI Too Long"
  | 415 => some "Unsupported Media Type"
  | 416 => some "Range Not Satisfiable"
  | 417 => some "Expectation Failed"
  | 418 => some "I'm a teapot"
  | 421 => some "Misdirected Request"
  | 422 => some "Unprocessable Entity"
  | 423 => some "Locked"
  | 424 => some "Failed Dependency"
  | 425 => some "Too Early"
  | 426 => some "Upgrade Required"
  | 428 => some "Precondition Required"
  | 429 => some "Too Many Requests"
  | 431 => some "Request Header Fields Too Large"
  | 451 => some "Unavailable For Legal Reasons"
  | 500 => some "Internal Server Error"
  | 501 => some "Not Implemented"
  | 502 => some "Bad Gateway"
  | 503 => some "Service Unavailable"
  | 504 => some "Gateway Timeout"
  | 505 => some "HTTP Version Not Supported"
  | 506 => some "Variant Also Negotiates"
  | 507 => some "Insufficient Storage"
  | 508 => some "Loop Detected"
  | 510 => some "Not Extended"
  | 511 => some "Network Authentication Required"
  | _ => none

/-! ## Errors and the session -/

/-- The `Protocol.Network.ErrorReason` enumeration from devtools-protocol. -/
inductive ErrorReason where
  | Failed
  | Aborted
  | TimedOut
  | AccessDenied
  | ConnectionClosed
  | ConnectionReset
  | ConnectionRefused
  | ConnectionAborted
  | ConnectionFailed
  | NameNotResolved
  | InternetDisconnected
  | AddressUnreachable
  | BlockedByClient
  | BlockedByResponse
deriving DecidableEq, Repr

/-- An error surfaced to the caller of a resolution operation. -/
inductive Err where
  | alreadyHandled
  | sendFailure (msg : String)
deriving DecidableEq, Repr

/-- Modelled from the spec: `handleError` from `api/HTTPRequest.ts` (not under
`src/`): normalizes a transport/remote error and propagates it to the caller
("the normalized error is propagated; neither is silently swallowed"). -/
def handleError (msg : String) : Err := .sendFailure msg

/-- The outcome the external Session reports for a sent command: the promise
returned by `send` resolves or rejects with an error message. -/
abbrev SendResult := Except String Unit

/-- Whether a send result is a success. -/
def sendOk : SendResult → Bool
  | .ok _ => true
  | .error _ => false

/-! ## The paused-request event and entity -/

/-- The request description inside a `Fetch.requestPaused` event. -/
structure NetworkRequest where
  url : String
  method : String
deriving DecidableEq, Repr

/-- The raw CDP `Fetch.requestPaused` event (the fields the class exposes). -/
structure RequestPausedEvent where
  requestId : String
  networkId : Option String := none
  request : NetworkRequest := ⟨"", ""⟩
  frameId : Option String := none
  resourceType : String := ""
deriving DecidableEq, Repr

/-- The `FetchRequestPaused` entity: the immutable event plus the single
mutable `handled` flag (initially `false`). -/
structure FetchRequestPaused where
  event : RequestPausedEvent
  handled : Bool := false
deriving DecidableEq, Repr

/-- Accessor `requestId`. -/
def FetchRequestPaused.requestId (rp : FetchRequestPaused) : String :=
  rp.event.requestId

/-- Accessor `networkId`. -/
def FetchRequestPaused.networkId (rp : FetchRequestPaused) : Option String :=
  rp.event.networkId

/-- Accessor `request`. -/
def FetchRequestPaused.request (rp : FetchRequestPaused) : NetworkRequest :=
  rp.event.request

/-- Accessor `frameId`. -/
def FetchRequestPaused.frameId (rp : FetchRequestPaused) : Option String :=
  rp.event.frameId

/-! ## Resolution inputs and outgoing commands -/

/-- The `ContinueRequestOverrides` input (all fields optional; `{}` omits them all). -/
structure ContinueRequestOverrides where
  url : Option String := none
  method : Option String := none
  postData : Option String := none
  headers : Option (List (String × String)) := none
deriving DecidableEq, Repr

/-- The `Partial<ResponseForRequest>` input. -/
structure ResponseForRequest where
  status : Option Nat := none
  headers : Option (List (String × HeaderValue)) := none
  contentType : Option String := none
  body : Option BodyInit := none
deriving DecidableEq, Repr

/-- The `Fetch.continueRequest` command parameters. -/
structure ContinueCommand where
  requestId : String
  url : Option String
  method : Option String
  postData : Option String
  headers : Option (List (String × String))
deriving DecidableEq, Repr

/-- The `Fetch.failRequest` command parameters. -/
structure FailCommand where
  requestId : String
  errorReason : ErrorReason
deriving DecidableEq, Repr

/-- The `Fetch.fulfillRequest` command parameters. -/
structure FulfillCommand where
  requestId : String
  responseCode : Nat
  responsePhrase : Option String
  responseHeaders : List (String × String)
  body : Option String
deriving DecidableEq, Repr

deriving instance DecidableEq for Except

/-- The observable outcome of one resolution operation: the value or error
the caller receives, the `handled` flag afterwards, and the command sent
through the Session (`none` when nothing was sent). -/
structure OpOutcome (C : Type) where
  result : Except Err Unit
  handled : Bool
  sent : Option C
deriving DecidableEq, Repr

/-! ## The three resolution operations -/

/-- The operation `FetchRequestPaused.continue` (source lines 92-116): fail if already
handled, optimistically set the flag, build the continue command
(`postData` base64-encoded only when the override is truthy, `headers`
flattened only when present), send it, and revert the flag on send failure,
propagating the normalized error. -/
def FetchRequestPaused.continueOp (rp : FetchRequestPaused)
    (overrides : ContinueRequestOverrides) (sr : SendResult) :
    OpOutcome ContinueCommand :=
  if rp.handled then ⟨.error .alreadyHandled, rp.handled, none⟩
  else
    let postDataBinaryBase64 : Option String :=
      match overrides.postData with
      | some pd => if pd = "" then none else some (stringToBase64 pd)
      | none => none
    let cmd : ContinueCommand :=
      { requestId := rp.event.requestId
        url := overrides.url
        method := overrides.method
        postData := postDataBinaryBase64
        headers := overrides.headers.map headersArrayS }
    match sr with
    | .ok _ => ⟨.ok (), true, some cmd⟩
    | .error e => ⟨.error (handleError e), false, some cmd⟩

/-- The operation `FetchRequestPaused.abort` (source lines 123-140): fail if already
handled, optimistically set the flag, send `Fetch.failRequest` with
`errorReason || 'Failed'`, and revert the flag on send failure. -/
def FetchRequestPaused.abort (rp : FetchRequestPaused)
    (errorReason : Option ErrorReason) (sr : SendResult) :
    OpOutcome FailCommand :=
  if rp.handled then ⟨.error .alreadyHandled, rp.handled, none⟩
  else
    let cmd : FailCommand :=
      { requestId := rp.event.requestId
        errorReason := errorReason.getD .Failed }
    match sr with
    | .ok _ => ⟨.ok (), true, some cmd⟩
    | .error e => ⟨.error (handleError e), false, some cmd⟩

/-- Source lines 159-161: derive the body data when `response.body` is
truthy. -/
def respondParsedBody (response : ResponseForRequest) : Option ParsedBody :=
  match response.body with
  | some b => if bodyTruthy b then some (getResponse b) else none
  | none => none

/-- JavaScript `String.prototype.toLowerCase` (character-wise case fold). -/
def toLowerCase (s : String) : String := ⟨s.data.map Char.toLower⟩

/-- Source lines 163-174: build the response-header record by case-folding
every caller-supplied name to lowercase and stringifying the value. -/
def buildResponseHeadersBase (hs : List (String × HeaderValue)) : HRecord :=
  hs.foldl (fun acc p => recSet acc (toLowerCase p.1) (stringifyHeaderValue p.2)) []

/-- The built header record of `respond` before the content-type write
(source lines 163-174; `[]` when `response.headers` is absent). -/
def respondBaseHeaders (response : ResponseForRequest) : HRecord :=
  match response.headers with
  | some hs => buildResponseHeadersBase hs
  | none => []

/-- Source lines 175-177: a truthy `contentType` overwrites the
`content-type` entry. -/
def respondHeadersWithCT (response : ResponseForRequest) : HRecord :=
  match response.contentType with
  | some ct =>
    if ct = "" then respondBaseHeaders response
    else recSet (respondBaseHeaders response) "content-type" (.single ct)
  | none => respondBaseHeaders response

/-- Source lines 178-180: inject `content-length` when a body was derived
with a truthy byte length and no `content-length` entry exists. -/
def respondFinalHeaders (response : ResponseForRequest) : HRecord :=
  match respondParsedBody response with
  | some pb =>
    if pb.contentLength != 0 && !(recHas (respondHeadersWithCT response) "content-length") then
      recSet (respondHeadersWithCT response) "content-length"
        (.single (toString pb.contentLength))
    else respondHeadersWithCT response
  | none => respondHeadersWithCT response

/-- Source line 182: `response.status || 200`. -/
def respondStatus (response : ResponseForRequest) : Nat :=
  match response.status with
  | some s => if s = 0 then 200 else s
  | none => 200

/-- The operation `FetchRequestPaused.respond` (source lines 147-195): fail if already
handled, optimistically set the flag, derive the body and headers, send
`Fetch.fulfillRequest`, and revert the flag on send failure. -/
def FetchRequestPaused.respond (rp : FetchRequestPaused)
    (response : ResponseForRequest) (sr : SendResult) :
    OpOutcome FulfillCommand :=
  if rp.handled then ⟨.error .alreadyHandled, rp.handled, none⟩
  else
    let parsedBody := respondParsedBody response
    let status := respondStatus response
    let cmd : FulfillCommand :=
      { requestId := rp.event.requestId
        responseCode := status
        responsePhrase := STATUS_TEXTS status
        responseHeaders := headersArray (respondFinalHeaders response)
        body := parsedBody.map (·.base64) }
    match sr with
    | .ok _ => ⟨.ok (), true, some cmd⟩
    | .error e => ⟨.error (handleError e), false, some cmd⟩

/-! ## Record lemmas -/

theorem recKeys_nil : recKeys [] = [] := rfl

theorem recKeys_cons (p : String × RVal) (t : HRecord) :
    recKeys (p :: t) = p.1 :: recKeys t := rfl

theorem recHas_eq_true_iff (r : HRecord) (k : String) :
    recHas r k = true ↔ k ∈ recKeys r := by
  induction r with
  | nil => simp [recHas, recKeys_nil]
  | cons p t ih =>
    simp only [recHas, recKeys_cons, List.mem_cons, Bool.or_eq_true,
      decide_eq_true_eq, ih]
    constructor
    · rintro (h | h)
      · exact .inl h.symm
      · exact .inr h
    · rintro (h | h)
      · exact .inl h.symm
      · exact .inr h

theorem recGet_isSome_iff (r : HRecord) (k : String) :
    (recGet r k).isSome = true ↔ k ∈ recKeys r := by
  induction r with
  | nil => simp [recGet, recKeys_nil]
  | cons p t ih =>
    by_cases h : p.1 = k
    · simp [recGet, recKeys_cons, h]
    · have h2 : ¬k = p.1 := fun e => h e.symm
      simp only [recGet, if_neg h, recKeys_cons, List.mem_cons, ih]
      simp [h2]

theorem recGet_recSet_self (r : HRecord) (k : String) (v : RVal) :
    recGet (recSet r k v) k = some v := by
  induction r with
  | nil => simp [recSet, recGet]
  | cons p t ih =>
    by_cases h : p.1 = k
    · simp [recSet, recGet, h]
    · simp [recSet, recGet, h, ih]

theorem recGet_recSet_ne (r : HRecord) (k k' : String) (v : RVal) (h : k' ≠ k) :
    recGet (recSet r k v) k' = recGet r k' := by
  have h' : ¬(k = k') := fun e => h e.symm
  induction r with
  | nil => simp [recSet, recGet, h']
  | cons p t ih =>
    by_cases hp : p.1 = k
    · subst hp
      simp [recSet, recGet, h']
    · by_cases hp' : p.1 = k'
      · simp [recSet, recGet, hp, hp', h]
      · simp [recSet, recGet, hp, hp', h, ih]

theorem recKeys_recSet (r : HRecord) (k : String) (v : RVal) :
    recKeys (recSet r k v) =
      if recHas r k then recKeys r else recKeys r ++ [k] := by
  induction r with
  | nil => simp [recSet, recHas, recKeys]
  | cons p t ih =>
    by_cases hp : p.1 = k
    · simp [recSet, recHas, recKeys_cons, hp]
    · by_cases ht : recHas t k = true <;>
        simp [recSet, recHas, recKeys_cons, hp, ht, ih]

theorem recHas_recSet_of (r : HRecord) (k k' : String) (v : RVal)
    (h : recHas r k' = true) : recHas (recSet r k v) k' = true := by
  rw [recHas_eq_true_iff] at h ⊢
  rw [recKeys_recSet]
  split
  · exact h
  · simp [h]

/-! ## Lemmas about the header-build fold -/

theorem recGet_buildAux (hs : List (String × HeaderValue)) (acc : HRecord)
    (k : String) :
    recGet (hs.foldl
        (fun a p => recSet a (toLowerCase p.1) (stringifyHeaderValue p.2)) acc) k =
      match hs.reverse.find? (fun p => toLowerCase p.1 = k) with
      | some p => some (stringifyHeaderValue p.2)
      | none => recGet acc k := by
  induction hs generalizing acc with
  | nil => simp
  | cons q t ih =>
    simp only [List.foldl_cons, List.reverse_cons, List.find?_append, ih]
    cases hf : t.reverse.find? (fun p => decide (toLowerCase p.1 = k)) with
    | some p => simp [Option.or]
    | none =>
      by_cases hq : toLowerCase q.1 = k
      · rw [← hq]
        simp [Option.or, List.find?, hq, recGet_recSet_self]
      · simp [Option.or, List.find?, hq,
          recGet_recSet_ne _ _ _ _ (fun e => hq e.symm)]

theorem recKeys_buildAux_nodup (hs : List (String × HeaderValue))
    (acc : HRecord) (h : (recKeys acc).Nodup) :
    (recKeys (hs.foldl
      (fun a p => recSet a (toLowerCase p.1) (stringifyHeaderValue p.2)) acc)).Nodup := by
  induction hs generalizing acc with
  | nil => simpa using h
  | cons q t ih =>
    simp only [List.foldl_cons]
    apply ih
    rw [recKeys_recSet]
    by_cases hhas : recHas acc (toLowerCase q.1) = true
    · simp [hhas, h]
    · have hmem : toLowerCase q.1 ∉ recKeys acc := by
        rw [← recHas_eq_true_iff]
        simp [hhas]
      simp [hhas, List.nodup_append, h, hmem]

theorem recKeys_buildAux_mem (hs : List (String × HeaderValue))
    (acc : HRecord) (k : String)
    (hk : k ∈ recKeys (hs.foldl
      (fun a p => recSet a (toLowerCase p.1) (stringifyHeaderValue p.2)) acc)) :
    k ∈ recKeys acc ∨ ∃ p ∈ hs, k = toLowerCase p.1 := by
  induction hs generalizing acc with
  | nil => left; simpa using hk
  | cons q t ih =>
    simp only [List.foldl_cons] at hk
    rcases ih _ hk with h | ⟨p, hp, he⟩
    · rw [recKeys_recSet] at h
      by_cases hhas : recHas acc (toLowerCase q.1) = true
      · rw [if_pos hhas] at h
        exact .inl h
      · rw [if_neg hhas] at h
        rcases List.mem_append.1 h with h | h
        · exact .inl h
        · exact .inr ⟨q, List.mem_cons_self q t, by simpa using h⟩
    · exact .inr ⟨p, List.mem_cons_of_mem q hp, he⟩

/-! ## Encoding lemmas -/

theorem utf8Bytes_ne_nil (c : Char) : utf8Bytes c ≠ [] := by
  simp only [utf8Bytes]
  split_ifs <;> simp

theorem strBytes_ne_nil (s : String) (h : s ≠ "") : strBytes s ≠ [] := by
  cases s with
  | mk cs =>
    cases cs with
    | nil => exact absurd rfl h
    | cons c t =>
      simp [strBytes, utf8Bytes_ne_nil c]

theorem base64Encode_ne_nil (bs : List Nat) (h : bs ≠ []) :
    base64Encode bs ≠ [] := by
  match bs with
  | [] => exact absurd rfl h
  | [b1] => simp [base64Encode]
  | [b1, b2] => simp [base64Encode]
  | b1 :: b2 :: b3 :: rest => simp [base64Encode]

theorem stringToBase64_ne_empty (s : String) (h : s ≠ "") :
    stringToBase64 s ≠ "" := by
  intro he
  apply base64Encode_ne_nil (strBytes s) (strBytes_ne_nil s h)
  simpa [stringToBase64] using congrArg String.data he

/-! ## Equations for the respond header pipeline -/

theorem respondFinalHeaders_none (resp : ResponseForRequest)
    (hpb : respondParsedBody resp = none) :
    respondFinalHeaders resp = respondHeadersWithCT resp := by
  unfold respondFinalHeaders
  rw [hpb]

theorem respondFinalHeaders_some (resp : ResponseForRequest) (pb : ParsedBody)
    (hpb : respondParsedBody resp = some pb) :
    respondFinalHeaders resp =
      if pb.contentLength != 0 &&
          !(recHas (respondHeadersWithCT resp) "content-length") then
        recSet (respondHeadersWithCT resp) "content-length"
          (.single (toString pb.contentLength))
      else respondHeadersWithCT resp := by
  unfold respondFinalHeaders
  rw [hpb]

/-! ## Claim theorems -/

/-- C1: for each of the three resolution operations (continue, abort,
respond), invoking the operation while the `handled` flag is already true
fails with the already-handled error and sends no command through the
Session; the `handled` flag (and all other state) is unchanged. -/
theorem C1_already_handled_rejects (e : RequestPausedEvent)
    (ov : ContinueRequestOverrides) (reason : Option ErrorReason)
    (resp : ResponseForRequest) (sr : SendResult) :
    FetchRequestPaused.continueOp ⟨e, true⟩ ov sr =
      ⟨.error .alreadyHandled, true, none⟩
    ∧ FetchRequestPaused.abort ⟨e, true⟩ reason sr =
      ⟨.error .alreadyHandled, true, none⟩
    ∧ FetchRequestPaused.respond ⟨e, true⟩ resp sr =
      ⟨.error .alreadyHandled, true, none⟩ :=
  ⟨rfl, rfl, rfl⟩

/-- C2: for each of the three resolution operations, if the Session send
fails, the `handled` flag is false after the operation completes (the object
is restored to Pending) and the normalized error is propagated to the
caller rather than silently swallowed. -/
theorem C2_send_failure_reverts (e : RequestPausedEvent)
    (ov : ContinueRequestOverrides) (reason : Option ErrorReason)
    (resp : ResponseForRequest) (msg : String) :
    ((FetchRequestPaused.continueOp ⟨e, false⟩ ov (.error msg)).handled = false
      ∧ (FetchRequestPaused.continueOp ⟨e, false⟩ ov (.error msg)).result =
        .error (handleError msg))
    ∧ ((FetchRequestPaused.abort ⟨e, false⟩ reason (.error msg)).handled = false
      ∧ (FetchRequestPaused.abort ⟨e, false⟩ reason (.error msg)).result =
        .error (handleError msg))
    ∧ ((FetchRequestPaused.respond ⟨e, false⟩ resp (.error msg)).handled = false
      ∧ (FetchRequestPaused.respond ⟨e, false⟩ resp (.error msg)).result =
        .error (handleError msg)) :=
  ⟨⟨rfl, rfl⟩, ⟨rfl, rfl⟩, ⟨rfl, rfl⟩⟩

/-- C3: for each of the three resolution operations, a successful send
leaves `handled` true; a subsequent resolution attempt on a handled object
fails with the already-handled error and sends nothing; and the `handled`
flag after any operation is exactly `previous || send succeeded`, so no
transition ever sets it back to false except the send-failure revert. -/
theorem C3_handled_permanent (e : RequestPausedEvent) (st : Bool)
    (ov : ContinueRequestOverrides) (reason : Option ErrorReason)
    (resp : ResponseForRequest) (sr : SendResult) :
    ((FetchRequestPaused.continueOp ⟨e, false⟩ ov (.ok ())).handled = true
      ∧ (FetchRequestPaused.abort ⟨e, false⟩ reason (.ok ())).handled = true
      ∧ (FetchRequestPaused.respond ⟨e, false⟩ resp (.ok ())).handled = true)
    ∧ ((FetchRequestPaused.continueOp ⟨e, true⟩ ov sr).result =
          .error .alreadyHandled
      ∧ (FetchRequestPaused.continueOp ⟨e, true⟩ ov sr).sent = none
      ∧ (FetchRequestPaused.abort ⟨e, true⟩ reason sr).result =
          .error .alreadyHandled
      ∧ (FetchRequestPaused.abort ⟨e, true⟩ reason sr).sent = none
      ∧ (FetchRequestPaused.respond ⟨e, true⟩ resp sr).result =
          .error .alreadyHandled
      ∧ (FetchRequestPaused.respond ⟨e, true⟩ resp sr).sent = none)
    ∧ ((FetchRequestPaused.continueOp ⟨e, st⟩ ov sr).handled = (st || sendOk sr)
      ∧ (FetchRequestPaused.abort ⟨e, st⟩ reason sr).handled = (st || sendOk sr)
      ∧ (FetchRequestPaused.respond ⟨e, st⟩ resp sr).handled = (st || sendOk sr)) := by
  refine ⟨⟨rfl, rfl, rfl⟩, ⟨rfl, rfl, rfl, rfl, rfl, rfl⟩, ?_⟩
  cases st <;> cases sr <;> exact ⟨rfl, rfl, rfl⟩

/-- C9: in abort, omitting the error reason (the null default) produces a
command whose `errorReason` equals the generic Failed reason code; an
explicit reason is carried through. -/
theorem C9_abort_error_reason (e : RequestPausedEvent) (sr : SendResult)
    (r : ErrorReason) :
    (FetchRequestPaused.abort ⟨e, false⟩ none sr).sent.map
      FailCommand.errorReason = some .Failed
    ∧ (FetchRequestPaused.abort ⟨e, false⟩ (some r) sr).sent.map
      FailCommand.errorReason = some r := by
  cases sr <;> exact ⟨rfl, rfl⟩

/-- C10: in respond, a caller-supplied body that is the empty string is
treated exactly as if no body were supplied: no body is derived, the
operation behaves identically to the body-less call, the outgoing command's
body field is absent, and no content-length header is injected. -/
theorem C10_empty_body_is_no_body (e : RequestPausedEvent)
    (resp : ResponseForRequest) (sr : SendResult) :
    FetchRequestPaused.respond ⟨e, false⟩ { resp with body := some (.text "") } sr =
      FetchRequestPaused.respond ⟨e, false⟩ { resp with body := none } sr
    ∧ respondParsedBody { resp with body := some (.text "") } = none
    ∧ (FetchRequestPaused.respond ⟨e, false⟩
        { resp with body := some (.text "") } sr).sent.map FulfillCommand.body =
        some none
    ∧ respondFinalHeaders { resp with body := some (.text "") } =
        respondHeadersWithCT { resp with body := some (.text "") } := by
  cases sr <;> exact ⟨rfl, rfl, rfl, rfl⟩

/-- C5: in respond, the built header map case-folds every caller-supplied
header name to lowercase so there is at most one entry per logical header
name (keys are exactly lowercase forms of caller names, without duplicates,
and each caller name is represented), the last write per distinct casing
wins in the order the caller provided them, non-string values are
stringified, and a list value becomes the ordered list of its stringified
elements. -/
theorem C5_header_map_case_folds (hs : List (String × HeaderValue)) :
    (recKeys (buildResponseHeadersBase hs)).Nodup
    ∧ (∀ k, k ∈ recKeys (buildResponseHeadersBase hs) →
        ∃ p ∈ hs, k = toLowerCase p.1)
    ∧ (∀ p, p ∈ hs → toLowerCase p.1 ∈ recKeys (buildResponseHeadersBase hs))
    ∧ (∀ k, recGet (buildResponseHeadersBase hs) k =
        match hs.reverse.find? (fun p => toLowerCase p.1 = k) with
        | some p => some (stringifyHeaderValue p.2)
        | none => none)
    ∧ (∀ p, stringifyHeaderValue (.prim p) = .single p.toStr)
    ∧ (∀ xs, stringifyHeaderValue (.list xs) = .multi (xs.map HeaderPrim.toStr)) := by
  have hget : ∀ k, recGet (buildResponseHeadersBase hs) k =
      match hs.reverse.find? (fun p => toLowerCase p.1 = k) with
      | some p => some (stringifyHeaderValue p.2)
      | none => none := by
    intro k
    have h := recGet_buildAux hs [] k
    simpa [buildResponseHeadersBase, recGet] using h
  refine ⟨?_, ?_, ?_, hget, fun p => rfl, fun xs => rfl⟩
  · exact recKeys_buildAux_nodup hs [] (by simp [recKeys_nil])
  · intro k hk
    rcases recKeys_buildAux_mem hs [] k hk with h | h
    · exact absurd h (List.not_mem_nil k)
    · exact h
  · intro p hp
    rw [← recGet_isSome_iff, hget (toLowerCase p.1)]
    have hfind :
        (hs.reverse.find? (fun q => toLowerCase q.1 = toLowerCase p.1)).isSome := by
      rw [List.find?_isSome]
      exact ⟨p, List.mem_reverse.2 hp, by simp⟩
    rcases Option.isSome_iff_exists.1 hfind with ⟨q, hq⟩
    simp [hq]

/-- C5 witness: two caller names differing only in case collapse to one
lowercase entry whose value is the stringification of the last write. -/
theorem C5_header_map_witness :
    (∃ p ∈ [("X-Test", HeaderValue.prim (.str "a")),
            ("x-TEST", HeaderValue.prim (.num 7))],
      "x-test" = toLowerCase p.1)
    ∧ recGet (buildResponseHeadersBase
        [("X-Test", HeaderValue.prim (.str "a")),
         ("x-TEST", HeaderValue.prim (.num 7))]) "x-test" =
      some (.single "7") := by
  refine ⟨(C5_header_map_case_folds _).2.1 "x-test" (by decide), ?_⟩
  decide

/-- C4 counterexample: with an empty binary body (truthy in JavaScript, so
a body is derived, with byte length 0) and no content-length entry in the
built header map, no content-length entry is injected — refuting the claim
that one is injected whenever a body was derived and none exists. -/
theorem C4_counterexample :
    respondParsedBody { body := some (.binary []) } = some ⟨0, ""⟩
    ∧ recHas (respondHeadersWithCT { body := some (.binary []) })
        "content-length" = false
    ∧ recGet (respondFinalHeaders { body := some (.binary []) })
        "content-length" = none := by
  decide

/-- C4 (amended): in respond, for every synthetic response where a body was
derived with a nonzero byte length and the built header map contains no
content-length entry, a content-length entry equal to the derived byte
length is injected; and whenever the caller supplied an explicit
content-length header, the derived value never overwrites it. -/
theorem C4_content_length (resp : ResponseForRequest) (pb : ParsedBody)
    (hpb : respondParsedBody resp = some pb) (hlen : pb.contentLength ≠ 0) :
    (recHas (respondHeadersWithCT resp) "content-length" = false →
      recGet (respondFinalHeaders resp) "content-length" =
        some (.single (toString pb.contentLength)))
    ∧ (∀ hs, resp.headers = some hs →
        hs.any (fun p => toLowerCase p.1 = "content-length") = true →
        respondFinalHeaders resp = respondHeadersWithCT resp) := by
  constructor
  · intro hhas
    rw [respondFinalHeaders_some resp pb hpb, if_pos (by simp [hhas, hlen])]
    exact recGet_recSet_self _ _ _
  · intro hs hhs hany
    have h0 : recHas (respondBaseHeaders resp) "content-length" = true := by
      rw [recHas_eq_true_iff, ← recGet_isSome_iff]
      have hb : respondBaseHeaders resp = buildResponseHeadersBase hs := by
        unfold respondBaseHeaders
        rw [hhs]
      have hg := recGet_buildAux hs [] "content-length"
      rcases List.any_eq_true.1 hany with ⟨p, hp, hpred⟩
      have hfind :
          (hs.reverse.find? (fun p => toLowerCase p.1 = "content-length")).isSome := by
        rw [List.find?_isSome]
        exact ⟨p, List.mem_reverse.2 hp, hpred⟩
      rcases Option.isSome_iff_exists.1 hfind with ⟨q, hq⟩
      rw [hb]
      rw [show buildResponseHeadersBase hs =
        hs.foldl (fun a p => recSet a (toLowerCase p.1) (stringifyHeaderValue p.2)) []
        from rfl, hg, hq]
      rfl
    have h1 : recHas (respondHeadersWithCT resp) "content-length" = true := by
      unfold respondHeadersWithCT
      cases hct : resp.contentType with
      | none => exact h0
      | some ct =>
        dsimp only
        by_cases hc : ct = ""
        · rw [if_pos hc]
          exact h0
        · rw [if_neg hc]
          exact recHas_recSet_of _ _ _ _ h0
    rw [respondFinalHeaders_some resp pb hpb, if_neg (by simp [h1])]

/-- C4 witness: the amended claim at concrete inputs — a five-byte body with
no explicit content-length yields an injected entry of "5", and an explicit
content-length header suppresses the injection. -/
theorem C4_content_length_witness :
    recGet (respondFinalHeaders
        { headers := some [("X-Test", .prim (.str "a"))],
          body := some (.text "hello") })
      "content-length" = some (.single (toString (5 : Nat)))
    ∧ respondFinalHeaders
        { headers := some [("Content-Length", .prim (.str "3"))],
          body := some (.text "hello") } =
      respondHeadersWithCT
        { headers := some [("Content-Length", .prim (.str "3"))],
          body := some (.text "hello") } := by
  constructor
  · exact (C4_content_length _ ⟨5, "aGVsbG8="⟩ (by decide) (by decide)).1 (by decide)
  · exact (C4_content_length _ ⟨5, "aGVsbG8="⟩ (by decide) (by decide)).2 _ rfl (by decide)

/-- C6 counterexample: a call that supplies a body override — the empty
string, falsy in JavaScript — produces a command whose body field is
absent, refuting the claim that every supplied body override yields a
non-empty encoded body field. -/
theorem C6_counterexample :
    (FetchRequestPaused.continueOp ⟨⟨"r", none, ⟨"", ""⟩, none, ""⟩, false⟩
        { postData := some "" } (.ok ())).sent.map ContinueCommand.postData =
      some none := by
  decide

/-- C6 (amended): in continue, omitting every override produces a command
whose postData and headers fields are absent; every call that supplies a
non-empty body override produces a command carrying a non-empty encoded
body field; an empty-string body override behaves as if omitted. -/
theorem C6_continue_fields (e : RequestPausedEvent) (sr : SendResult)
    (ov : ContinueRequestOverrides) (pd : String) (hpd : pd ≠ "") :
    ((FetchRequestPaused.continueOp ⟨e, false⟩ {} sr).sent.map
        ContinueCommand.postData = some none
      ∧ (FetchRequestPaused.continueOp ⟨e, false⟩ {} sr).sent.map
        ContinueCommand.headers = some none)
    ∧ ((FetchRequestPaused.continueOp ⟨e, false⟩
          { ov with postData := some pd } sr).sent.map
        ContinueCommand.postData = some (some (stringToBase64 pd))
      ∧ stringToBase64 pd ≠ "")
    ∧ (FetchRequestPaused.continueOp ⟨e, false⟩
          { ov with postData := some "" } sr).sent.map
        ContinueCommand.postData = some none := by
  refine ⟨?_, ⟨?_, stringToBase64_ne_empty pd hpd⟩, ?_⟩ <;>
    cases sr <;>
    simp [FetchRequestPaused.continueOp, hpd]

/-- C6 witness: the amended claim at a concrete input — a non-empty body
override yields the encoded body, which is non-empty. -/
theorem C6_continue_fields_witness :
    (FetchRequestPaused.continueOp ⟨⟨"r", none, ⟨"", ""⟩, none, ""⟩, false⟩
        { postData := some "hi" } (.ok ())).sent.map ContinueCommand.postData =
      some (some (stringToBase64 "hi"))
    ∧ stringToBase64 "hi" ≠ "" :=
  (C6_continue_fields ⟨"r", none, ⟨"", ""⟩, none, ""⟩ (.ok ()) {} "hi"
    (by decide)).2.1

/-- C7: in respond, the status phrase is looked up in the fixed status-code
table: status 404 yields the phrase "Not Found", while a status code not in
the table (999) yields an absent phrase and the operation still succeeds. -/
theorem C7_status_phrase (e : RequestPausedEvent) (resp : ResponseForRequest)
    (sr : SendResult) :
    (STATUS_TEXTS 404 = some "Not Found" ∧ STATUS_TEXTS 999 = none)
    ∧ (FetchRequestPaused.respond ⟨e, false⟩
        { resp with status := some 404 } sr).sent.map
        FulfillCommand.responsePhrase = some (some "Not Found")
    ∧ (FetchRequestPaused.respond ⟨e, false⟩
        { resp with status := some 999 } sr).sent.map
        FulfillCommand.responsePhrase = some none
    ∧ (FetchRequestPaused.respond ⟨e, false⟩
        { resp with status := some 999 } (.ok ())).result = .ok () := by
  refine ⟨⟨rfl, rfl⟩, ?_, ?_, rfl⟩ <;> cases sr <;> rfl

/-- C8 counterexample: supplying the (falsy) empty-string content-type
together with a conflicting content-type header leaves the caller's header
value in place, so the supplied value does not win. -/
theorem C8_counterexample :
    recGet (respondHeadersWithCT
        { contentType := some "",
          headers := some [("Content-Type", .prim (.str "text/html"))] })
      "content-type" = some (.single "text/html") := by
  decide

/-- C8 (amended): in respond, whenever a non-empty content-type value is
supplied, the built header map's content-type entry equals that value,
overwriting any content-type entry that came from the caller's header map;
an empty-string content-type is ignored. -/
theorem C8_content_type_wins (resp : ResponseForRequest) (ct : String)
    (hct : resp.contentType = some ct) (h : ct ≠ "") :
    recGet (respondHeadersWithCT resp) "content-type" = some (.single ct)
    ∧ recGet (respondFinalHeaders resp) "content-type" = some (.single ct) := by
  have h1 : respondHeadersWithCT resp =
      recSet (respondBaseHeaders resp) "content-type" (.single ct) := by
    unfold respondHeadersWithCT
    rw [hct]
    dsimp only
    rw [if_neg h]
  constructor
  · rw [h1]
    exact recGet_recSet_self _ _ _
  · cases hpb : respondParsedBody resp with
    | none =>
      rw [respondFinalHeaders_none resp hpb, h1]
      exact recGet_recSet_self _ _ _
    | some pb =>
      rw [respondFinalHeaders_some resp pb hpb]
      by_cases hc : (pb.contentLength != 0 &&
          !(recHas (respondHeadersWithCT resp) "content-length")) = true
      · rw [if_pos hc, recGet_recSet_ne _ _ _ _ (by decide), h1]
        exact recGet_recSet_self _ _ _
      · rw [if_neg hc, h1]
        exact recGet_recSet_self _ _ _

/-- C8 witness: the amended claim at a concrete input — the non-empty
content-type override beats a conflicting caller header. -/
theorem C8_content_type_wins_witness :
    recGet (respondFinalHeaders
        { contentType := some "text/plain",
          headers := some [("Content-Type", .prim (.str "text/html"))] })
      "content-type" = some (.single "text/plain") :=
  (C8_content_type_wins
      { contentType := some "text/plain",
        headers := some [("Content-Type", .prim (.str "text/html"))] }
      "text/plain" rfl (by decide)).2

end FetchPaused
